import Mathlib

/-!
Shallow embedding of the `modelpoison` repository (Go), packages
`pkg/detect` (detect.go) and `pkg/defend` (defend.go).

Modelling conventions:
* Go `float64` values are modelled as exact rationals `ℚ`; the arithmetic in
  the source (add, sub, mul, div, abs, min, max, comparisons) is idealized to
  exact rational arithmetic.
* `math.Sqrt` is modelled as an explicit parameter `sqrt : ℚ → ℚ`; every
  theorem below is proved for an arbitrary such function, so it holds in
  particular for the real square root.  No property of `sqrt` is assumed:
  every use in the source is guarded by a `stdDev > 0` or `stdDev == 0` test.
* IEEE-754 NaN can arise in exactly one place in the source:
  `checkGradientPoison` computes `float64(outliers) / float64(len(features))`
  without guarding `len == 0`, and `0.0/0.0 = NaN`, which then propagates
  through `* 2.0` and `math.Min` (Go `math.Min(NaN, 1) = NaN`).  That scorer
  is therefore modelled with result type `Option ℚ`, `none` standing for NaN;
  all comparisons `NaN > t` are false, which the embedding makes explicit at
  the single use site.
* Go `nil` maps are modelled with `Option`: `Sample.metadata : Option _`,
  `none` standing for a nil map.  Assigning into a nil map panics in Go, so
  `detectOutliers` (the only writer) returns `Option (List Sample)`, `none`
  standing for the panic.
* `PoisonType` is a string type in the source (`type PoisonType string`) whose
  zero value is the empty string; it is modelled as `String`.
-/

/-- Training sample (detect.go, `type Sample struct`).  Package defend uses a
structurally identical `Sample` (its declaration file is not part of the
provided sources; spec §3 gives a single Sample model, which this follows):
identifier, ordered numeric features, integer label, metadata map.  Metadata
values: the code only ever stores the boolean entry `"suspicious" = true`, so
the `map[string]interface{}` is modelled as an association list to `Bool`;
`none` models a nil map. -/
structure Sample where
  id : String
  features : List ℚ
  label : Int
  metadata : Option (List (String × Bool))
deriving DecidableEq

/-- detect.go: `type PoisonType string`. -/
abbrev PoisonType := String

def TypeBackdoor : PoisonType := "backdoor"

def TypeLabelFlip : PoisonType := "label_flip"

def TypeGradientPoison : PoisonType := "gradient_poison"

def TypeFeaturePoison : PoisonType := "feature_poison"

def TypeDataPoison : PoisonType := "data_poison"

/-- detect.go: `type PoisonedSample struct` — per-sample verdict.  Fields keep
their Go zero values until written (`Type` zero value is the empty string). -/
structure PoisonedSample where
  id : String
  isPoisoned : Bool
  score : ℚ
  type : PoisonType
  description : String
  evidence : String
  confidence : ℚ
deriving DecidableEq

/-- detect.go: `type DetectionResult struct`. -/
structure DetectionResult where
  isPoisoned : Bool
  sampleCount : ℕ
  poisonedCount : ℕ
  samples : List PoisonedSample
  riskScore : ℚ
  method : String
deriving DecidableEq

/-- detect.go `NewDetector`: the fixed threshold map.  Go map lookup of an
absent key yields the zero value 0, hence the final 0 branch. -/
def thresholds (t : PoisonType) : ℚ :=
  if t = TypeBackdoor then 7/10
  else if t = TypeLabelFlip then 6/10
  else if t = TypeGradientPoison then 13/20
  else if t = TypeFeaturePoison then 7/10
  else if t = TypeDataPoison then 13/20
  else 0

/-- detect.go `calculateMean`: arithmetic mean, 0 on empty input. -/
def calculateMean (features : List ℚ) : ℚ :=
  if features = [] then 0 else features.sum / features.length

/-- detect.go `calculateStdDev`: population standard deviation
`Sqrt(Σ (f-mean)² / n)`, 0 on empty input.  `sqrt` models `math.Sqrt`. -/
def calculateStdDev (sqrt : ℚ → ℚ) (features : List ℚ) (mean : ℚ) : ℚ :=
  if features = [] then 0
  else sqrt ((features.map (fun f => (f - mean) * (f - mean))).sum / features.length)

/-- detect.go `calculateAverage`: per-index "reference value", half the
feature's own value (`avg[i] = features[i] / 2.0`); empty input returned
as-is. -/
def calculateAverage (features : List ℚ) : List ℚ :=
  if features = [] then features else features.map (fun f => f / 2)

/-- detect.go `checkBackdoor`: adds 0.1 per index where the deviation from the
reference value exceeds 3.0, then clamps with `math.Min(score, 1.0)`. -/
def checkBackdoor (sample : Sample) : ℚ :=
  let avgFeatures := calculateAverage sample.features
  let score := (sample.features.zip avgFeatures).foldl
    (fun s p => if 3 < |p.1 - p.2| then s + 1/10 else s) 0
  min score 1

/-- detect.go `calculateLabelLikelihood`: hardcoded `return 0.5`. -/
def calculateLabelLikelihood (_sample : Sample) : ℚ := 1/2

/-- detect.go `checkLabelFlip`: score `1 - likelihood` when the likelihood is
below 0.3, else 0. -/
def checkLabelFlip (sample : Sample) : ℚ :=
  let likelihood := calculateLabelLikelihood sample
  if likelihood < 3/10 then 1 - likelihood else 0

/-- detect.go `checkGradientPoison`: counts features with absolute z-score
above 2.0 (only when `stdDev > 0`), then computes
`float64(outliers)/float64(len(features)) * 2.0` clamped by `math.Min(·, 1)`.
The division is NOT guarded: on an empty feature list Go computes
`0.0/0.0 = NaN`, and NaN propagates through `* 2.0` and `math.Min`; `none`
models that NaN result. -/
def checkGradientPoison (sqrt : ℚ → ℚ) (sample : Sample) : Option ℚ :=
  let mean := calculateMean sample.features
  let stdDev := calculateStdDev sqrt sample.features mean
  let outliers := sample.features.countP
    (fun f => decide (0 < stdDev ∧ 2 < |f - mean| / stdDev))
  if sample.features.length = 0 then none
  else some (min ((outliers : ℚ) / (sample.features.length : ℚ) * 2) 1)

/-- detect.go `checkFeaturePoison`: maximum absolute z-score over the features
(z-scores computed only when `stdDev > 0`, running max starting at 0), divided
by 5.0 and clamped by `math.Min(·, 1)`. -/
def checkFeaturePoison (sqrt : ℚ → ℚ) (sample : Sample) : ℚ :=
  let mean := calculateMean sample.features
  let stdDev := calculateStdDev sqrt sample.features mean
  let maxZScore := sample.features.foldl
    (fun m f =>
      if 0 < stdDev then
        let z := |f - mean| / stdDev
        if m < z then z else m
      else m) 0
  min (maxZScore / 5) 1

/-- detect.go `analyzeSample`: runs the four checks in order (backdoor,
label_flip, gradient_poison, feature_poison); each check that strictly exceeds
its threshold overwrites `Type`/`Description`/`Evidence`/`Confidence`, sets
`IsPoisoned`, and keeps the running maximum in `Score` (the first check writes
`Score` directly; the rest use `math.Max`).  The gradient comparison
`gradientScore > threshold` is false when the score is NaN (`none`), exactly
as in IEEE-754. -/
def analyzeSample (sqrt : ℚ → ℚ) (sample : Sample) : PoisonedSample :=
  let result : PoisonedSample :=
    { id := sample.id
      isPoisoned := false
      score := 0
      type := ""
      description := ""
      evidence := ""
      confidence := 0 }
  let backdoorScore := checkBackdoor sample
  let result :=
    if thresholds TypeBackdoor < backdoorScore then
      { result with
        isPoisoned := true
        type := TypeBackdoor
        score := backdoorScore
        confidence := backdoorScore
        description := "Potential backdoor trigger detected"
        evidence := "Unusual feature pattern" }
    else result
  let labelScore := checkLabelFlip sample
  let result :=
    if thresholds TypeLabelFlip < labelScore then
      { result with
        isPoisoned := true
        type := TypeLabelFlip
        score := max result.score labelScore
        confidence := labelScore
        description := "Suspicious label assignment detected"
        evidence := "Label-feature inconsistency" }
    else result
  let gradientScore := checkGradientPoison sqrt sample
  let result :=
    match gradientScore with
    | none => result
    | some g =>
      if thresholds TypeGradientPoison < g then
        { result with
          isPoisoned := true
          type := TypeGradientPoison
          score := max result.score g
          confidence := g
          description := "Gradient manipulation detected"
          evidence := "Abnormal gradient pattern" }
      else result
  let featureScore := checkFeaturePoison sqrt sample
  if thresholds TypeFeaturePoison < featureScore then
    { result with
      isPoisoned := true
      type := TypeFeaturePoison
      score := max result.score featureScore
      confidence := featureScore
      description := "Feature manipulation detected"
      evidence := "Anomalous feature values" }
  else result

/-- detect.go `calculateRiskScore`: 0 when `SampleCount == 0`, otherwise
`ratio*0.7 + avgConfidence*0.3` with `ratio = PoisonedCount/SampleCount` and
`avgConfidence` the sum of the verdicts' confidences over `SampleCount`. -/
def calculateRiskScore (result : DetectionResult) : ℚ :=
  if result.sampleCount = 0 then 0
  else
    let r := (result.poisonedCount : ℚ) / (result.sampleCount : ℚ)
    let totalConfidence := (result.samples.map PoisonedSample.confidence).sum
    let avgConfidence := totalConfidence / (result.sampleCount : ℚ)
    r * (7/10) + avgConfidence * (3/10)

/-- detect.go `Detect`: analyzes every sample in order, counts poisoned
verdicts, sets `SampleCount`, `IsPoisoned = PoisonedCount > 0`, then computes
the risk score from the accumulated result. -/
def Detect (sqrt : ℚ → ℚ) (samples : List Sample) : DetectionResult :=
  let analyzed := samples.map (analyzeSample sqrt)
  let poisonedCount := analyzed.countP (fun p => p.isPoisoned)
  let base : DetectionResult :=
    { isPoisoned := decide (0 < poisonedCount)
      sampleCount := samples.length
      poisonedCount := poisonedCount
      samples := analyzed
      riskScore := 0
      method := "ensemble_detection" }
  { base with riskScore := calculateRiskScore base }

/-- defend.go: `type DefenseStrategy struct`. -/
structure DefenseStrategy where
  name : String
  description : String
  effectiveness : ℚ
  overhead : ℚ
  type : String
deriving DecidableEq

/-- defend.go: `type DefenseResult struct`. -/
structure DefenseResult where
  success : Bool
  strategyUsed : String
  improvement : ℚ
  riskReduction : ℚ
  cost : ℚ
deriving DecidableEq

/-- defend.go `NewDefender`: the static strategy catalog, in source order. -/
def strategies : List DefenseStrategy :=
  [ { name := "Data Cleaning"
      description := "Remove suspicious samples"
      effectiveness := 3/4
      overhead := 1/5
      type := "preprocessing" },
    { name := "Robust Aggregation"
      description := "Use robust aggregation methods"
      effectiveness := 4/5
      overhead := 3/20
      type := "aggregation" },
    { name := "Input Filtering"
      description := "Filter malicious inputs"
      effectiveness := 7/10
      overhead := 1/10
      type := "filtering" },
    { name := "Adversarial Training"
      description := "Train on poisoned examples"
      effectiveness := 17/20
      overhead := 2/5
      type := "training" },
    { name := "Outlier Detection"
      description := "Detect and remove outliers"
      effectiveness := 13/20
      overhead := 3/25
      type := "detection" },
    { name := "Ensemble Defense"
      description := "Use multiple models"
      effectiveness := 9/10
      overhead := 1/2
      type := "ensemble" } ]

/-- defend.go `Defend`: scans the catalog for the first strategy whose name
equals the argument; on a match returns success with
`improvement = effectiveness * risk`, `riskReduction = risk - improvement`
and `cost = overhead`; otherwise returns the zero-valued
`DefenseResult{Success: false}`. -/
def Defend (poisoningRisk : ℚ) (strategy : String) : DefenseResult :=
  match strategies.find? (fun strat => strat.name == strategy) with
  | some strat =>
    let improvement := strat.effectiveness * poisoningRisk
    let riskReduction := poisoningRisk - improvement
    { success := true
      strategyUsed := strat.name
      improvement := improvement
      riskReduction := riskReduction
      cost := strat.overhead }
  | none =>
    { success := false
      strategyUsed := ""
      improvement := 0
      riskReduction := 0
      cost := 0 }

/-- defend.go `calculateMean` (package defend copy, same as detect). -/
def defendCalculateMean (features : List ℚ) : ℚ :=
  if features = [] then 0 else features.sum / features.length

/-- defend.go `calculateStdDev` (package defend copy, same as detect). -/
def defendCalculateStdDev (sqrt : ℚ → ℚ) (features : List ℚ) (mean : ℚ) : ℚ :=
  if features = [] then 0
  else sqrt ((features.map (fun f => (f - mean) * (f - mean))).sum / features.length)

/-- defend.go `isSuspicious`: any feature with absolute z-score above 3.0
(z-scores taken only when `stdDev > 0`). -/
def isSuspicious (sqrt : ℚ → ℚ) (sample : Sample) : Bool :=
  let mean := defendCalculateMean sample.features
  let stdDev := defendCalculateStdDev sqrt sample.features mean
  sample.features.any (fun f => decide (0 < stdDev ∧ 3 < |f - mean| / stdDev))

/-- defend.go `isValidInput`: false on an empty feature sequence; false when
any feature is below -100 or above 100; true otherwise. -/
def isValidInput (sample : Sample) : Bool :=
  if sample.features.length = 0 then false
  else sample.features.all (fun f => !decide (f < -100 ∨ 100 < f))

/-- defend.go `isOutlier`: false when `stdDev == 0`; otherwise any feature
with absolute z-score above 2.5. -/
def isOutlier (sqrt : ℚ → ℚ) (sample : Sample) : Bool :=
  let mean := defendCalculateMean sample.features
  let stdDev := defendCalculateStdDev sqrt sample.features mean
  if stdDev = 0 then false
  else sample.features.any (fun f => decide (5/2 < |f - mean| / stdDev))

/-- defend.go `cleanData`: keep the samples that are not suspicious. -/
def cleanData (sqrt : ℚ → ℚ) (samples : List Sample) : List Sample :=
  samples.filter (fun sample => !isSuspicious sqrt sample)

/-- defend.go `filterInputs`: keep the samples passing `isValidInput`. -/
def filterInputs (samples : List Sample) : List Sample :=
  samples.filter isValidInput

/-- Assignment `m[k] = v` on a (non-nil) Go map, modelled on the association
list: replaces the binding of `k` when present, otherwise appends it. -/
def mapAssign (k : String) (v : Bool) : List (String × Bool) → List (String × Bool)
  | [] => [(k, v)]
  | (k1, v1) :: rest =>
    if k1 = k then (k, v) :: rest else (k1, v1) :: mapAssign k v rest

/-- defend.go `detectOutliers`: iterates the samples in order, marking each
outlier sample by assigning `samples[i].Metadata["suspicious"] = true` in
place.  When the sample's metadata map is nil, a Go assignment into it panics
("assignment to entry in nil map"); `none` models that panic, which aborts the
whole loop at the first offending sample. -/
def detectOutliers (sqrt : ℚ → ℚ) : List Sample → Option (List Sample)
  | [] => some []
  | sample :: rest => do
    let marked ←
      if isOutlier sqrt sample then
        match sample.metadata with
        | none => none
        | some m => some { sample with metadata := some (mapAssign "suspicious" true m) }
      else some sample
    let markedRest ← detectOutliers sqrt rest
    some (marked :: markedRest)

/-- defend.go `applyStrategy`: dispatch on the strategy category; categories
other than preprocessing/filtering/detection pass the samples through. -/
def applyStrategy (sqrt : ℚ → ℚ) (samples : List Sample) (strategy : DefenseStrategy) :
    Option (List Sample) :=
  if strategy.type = "preprocessing" then some (cleanData sqrt samples)
  else if strategy.type = "filtering" then some (filterInputs samples)
  else if strategy.type = "detection" then detectOutliers sqrt samples
  else some samples

/-- defend.go `ApplyDefense`: finds the first catalog strategy with the given
name and applies it; an unknown name passes the samples through unchanged.
`none` models the panic that `detectOutliers` can raise. -/
def ApplyDefense (sqrt : ℚ → ℚ) (samples : List Sample) (strategy : String) :
    Option (List Sample) :=
  match strategies.find? (fun strat => strat.name == strategy) with
  | some strat => applyStrategy sqrt samples strat
  | none => some samples

/-- defend.go `CalculateDefenseScore`: 0 on empty input, else the sum of
`Improvement` over the successful results divided by the total result
count. -/
def CalculateDefenseScore (results : List DefenseResult) : ℚ :=
  if results.length = 0 then 0
  else
    (results.foldl (fun s result => if result.success then s + result.improvement else s) 0)
      / (results.length : ℚ)

/-! Helper lemmas. -/

lemma thresholds_backdoor : thresholds TypeBackdoor = 7/10 := by
  simp [thresholds]

lemma thresholds_labelFlip : thresholds TypeLabelFlip = 6/10 := by
  simp [thresholds, TypeBackdoor, TypeLabelFlip]

lemma thresholds_gradientPoison : thresholds TypeGradientPoison = 13/20 := by
  simp [thresholds, TypeBackdoor, TypeLabelFlip, TypeGradientPoison]

lemma thresholds_featurePoison : thresholds TypeFeaturePoison = 7/10 := by
  simp [thresholds, TypeBackdoor, TypeLabelFlip, TypeGradientPoison, TypeFeaturePoison]

lemma checkLabelFlip_eq_zero (sample : Sample) : checkLabelFlip sample = 0 := by
  unfold checkLabelFlip calculateLabelLikelihood
  norm_num

lemma backdoor_foldl_nonneg (l : List (ℚ × ℚ)) (acc : ℚ) (h : 0 ≤ acc) :
    0 ≤ l.foldl (fun s p => if 3 < |p.1 - p.2| then s + 1/10 else s) acc := by
  induction l generalizing acc with
  | nil => exact h
  | cons p t ih =>
    simp only [List.foldl_cons]
    split
    · exact ih _ (by linarith)
    · exact ih _ h

lemma checkBackdoor_bounds (sample : Sample) :
    0 ≤ checkBackdoor sample ∧ checkBackdoor sample ≤ 1 := by
  unfold checkBackdoor
  exact ⟨le_min (backdoor_foldl_nonneg _ _ le_rfl) one_pos.le, min_le_right _ _⟩

lemma foldl_nonneg {α : Type} (f : ℚ → α → ℚ)
    (hf : ∀ acc x, 0 ≤ acc → 0 ≤ f acc x) (l : List α) (acc : ℚ) (h : 0 ≤ acc) :
    0 ≤ l.foldl f acc := by
  induction l generalizing acc with
  | nil => exact h
  | cons x t ih =>
    rw [List.foldl_cons]
    exact ih _ (hf acc x h)

lemma featureZ_foldl_nonneg (mean stdDev : ℚ) (l : List ℚ) (acc : ℚ) (h : 0 ≤ acc) :
    0 ≤ l.foldl
      (fun m f =>
        if 0 < stdDev then
          let z := |f - mean| / stdDev
          if m < z then z else m
        else m) acc := by
  refine foldl_nonneg _ (fun m f hm => ?_) l acc h
  by_cases hs : 0 < stdDev
  · rw [if_pos hs]
    show 0 ≤ if m < |f - mean| / stdDev then |f - mean| / stdDev else m
    split
    · exact div_nonneg (abs_nonneg _) hs.le
    · exact hm
  · rw [if_neg hs]
    exact hm

lemma checkFeaturePoison_bounds (sqrt : ℚ → ℚ) (sample : Sample) :
    0 ≤ checkFeaturePoison sqrt sample ∧ checkFeaturePoison sqrt sample ≤ 1 := by
  unfold checkFeaturePoison
  refine ⟨le_min (div_nonneg ?_ (by norm_num)) one_pos.le, min_le_right _ _⟩
  exact featureZ_foldl_nonneg _ _ _ _ le_rfl

lemma checkGradientPoison_eq_none_iff (sqrt : ℚ → ℚ) (sample : Sample) :
    checkGradientPoison sqrt sample = none ↔ sample.features = [] := by
  simp only [checkGradientPoison]
  constructor
  · intro h
    by_cases hl : sample.features.length = 0
    · exact List.length_eq_zero.mp hl
    · rw [if_neg hl] at h
      exact absurd h (Option.some_ne_none _)
  · intro h
    rw [if_pos (by simp [h])]

lemma checkGradientPoison_some_bounds {sqrt : ℚ → ℚ} {sample : Sample} {g : ℚ}
    (h : checkGradientPoison sqrt sample = some g) : 0 ≤ g ∧ g ≤ 1 := by
  simp only [checkGradientPoison] at h
  by_cases hl : sample.features.length = 0
  · rw [if_pos hl] at h
    exact absurd h (Option.noConfusion)
  · rw [if_neg hl, Option.some_inj] at h
    subst h
    refine ⟨le_min ?_ one_pos.le, min_le_right _ _⟩
    positivity

/-! C6 and C9. -/

/-- C6: for every sample, the label-likelihood scorer returns exactly 0: the
placeholder likelihood is the constant 0.5, which is never below the 0.3
trigger condition, so `checkLabelFlip` is a structural no-op. -/
theorem checkLabelFlip_noop (sample : Sample) :
    calculateLabelLikelihood sample = 1/2
    ∧ ¬ calculateLabelLikelihood sample < 3/10
    ∧ checkLabelFlip sample = 0 := by
  refine ⟨rfl, by norm_num [calculateLabelLikelihood], ?_⟩
  unfold checkLabelFlip calculateLabelLikelihood
  norm_num

/-- C9: `Defend(0.3, "Data Cleaning")` succeeds with improvement exactly
0.225 = 9/40, risk reduction exactly 0.075 = 3/40, and cost 0.2 = 1/5, from
the catalog effectiveness 0.75 and overhead 0.2 of Data Cleaning. -/
theorem Defend_dataCleaning_values :
    Defend (3/10) "Data Cleaning" =
      { success := true
        strategyUsed := "Data Cleaning"
        improvement := 9/40
        riskReduction := 3/40
        cost := 1/5 } := by
  have h : Defend (3/10) "Data Cleaning" =
      { success := true
        strategyUsed := "Data Cleaning"
        improvement := 3/4 * (3/10)
        riskReduction := 3/10 - 3/4 * (3/10)
        cost := 1/5 } := rfl
  rw [h]
  simp only [DefenseResult.mk.injEq]
  norm_num

lemma labelFlip_never_fires (sample : Sample) :
    ¬ thresholds TypeLabelFlip < checkLabelFlip sample := by
  rw [checkLabelFlip_eq_zero, thresholds_labelFlip]
  norm_num

lemma analyzeSample_confidence_bounds (sqrt : ℚ → ℚ) (sample : Sample) :
    0 ≤ (analyzeSample sqrt sample).confidence
    ∧ (analyzeSample sqrt sample).confidence ≤ 1 := by
  obtain ⟨hb0, hb1⟩ := checkBackdoor_bounds sample
  obtain ⟨hf0, hf1⟩ := checkFeaturePoison_bounds sqrt sample
  have hlf := labelFlip_never_fires sample
  rcases hg : checkGradientPoison sqrt sample with _ | g
  · by_cases hb : thresholds TypeBackdoor < checkBackdoor sample <;>
      by_cases hf : thresholds TypeFeaturePoison < checkFeaturePoison sqrt sample <;>
        simp [analyzeSample, hg, hb, hf, hlf] <;>
          exact ⟨by linarith, by linarith⟩
  · obtain ⟨hg0, hg1⟩ := checkGradientPoison_some_bounds hg
    by_cases hb : thresholds TypeBackdoor < checkBackdoor sample <;>
      by_cases hgt : thresholds TypeGradientPoison < g <;>
        by_cases hf : thresholds TypeFeaturePoison < checkFeaturePoison sqrt sample <;>
          simp [analyzeSample, hg, hb, hgt, hf, hlf] <;>
            exact ⟨by linarith, by linarith⟩

lemma analyzeSample_unpoisoned (sqrt : ℚ → ℚ) (sample : Sample)
    (h : (analyzeSample sqrt sample).isPoisoned = false) :
    analyzeSample sqrt sample =
      { id := sample.id
        isPoisoned := false
        score := 0
        type := ""
        description := ""
        evidence := ""
        confidence := 0 } := by
  have hlf := labelFlip_never_fires sample
  rcases hg : checkGradientPoison sqrt sample with _ | g
  · by_cases hb : thresholds TypeBackdoor < checkBackdoor sample <;>
      by_cases hf : thresholds TypeFeaturePoison < checkFeaturePoison sqrt sample <;>
        simp [analyzeSample, hg, hb, hf, hlf] at h ⊢
  · by_cases hb : thresholds TypeBackdoor < checkBackdoor sample <;>
      by_cases hgt : thresholds TypeGradientPoison < g <;>
        by_cases hf : thresholds TypeFeaturePoison < checkFeaturePoison sqrt sample <;>
          simp [analyzeSample, hg, hb, hgt, hf, hlf] at h ⊢

lemma Detect_samples_eq (sqrt : ℚ → ℚ) (samples : List Sample) :
    (Detect sqrt samples).samples = samples.map (analyzeSample sqrt) := rfl

lemma Detect_poisonedCount_eq (sqrt : ℚ → ℚ) (samples : List Sample) :
    (Detect sqrt samples).poisonedCount =
      (samples.map (analyzeSample sqrt)).countP (fun p => p.isPoisoned) := rfl

lemma Detect_sampleCount_eq (sqrt : ℚ → ℚ) (samples : List Sample) :
    (Detect sqrt samples).sampleCount = samples.length := rfl

lemma Detect_riskScore_eq (sqrt : ℚ → ℚ) (samples : List Sample) :
    (Detect sqrt samples).riskScore =
      if samples.length = 0 then 0
      else ((samples.map (analyzeSample sqrt)).countP (fun p => p.isPoisoned) : ℚ)
          / (samples.length : ℚ) * (7/10)
        + (((samples.map (analyzeSample sqrt)).map PoisonedSample.confidence).sum
          / (samples.length : ℚ)) * (3/10) := by
  simp [Detect, calculateRiskScore]

lemma sum_confidence_bounds (sqrt : ℚ → ℚ) (samples : List Sample) :
    0 ≤ ((samples.map (analyzeSample sqrt)).map PoisonedSample.confidence).sum
    ∧ ((samples.map (analyzeSample sqrt)).map PoisonedSample.confidence).sum
        ≤ (samples.length : ℚ) := by
  induction samples with
  | nil => simp
  | cons s t ih =>
    obtain ⟨h0, h1⟩ := analyzeSample_confidence_bounds sqrt s
    obtain ⟨ih0, ih1⟩ := ih
    simp only [List.map_cons, List.sum_cons, List.length_cons]
    push_cast
    constructor <;> linarith

/-- C1: for every sample sequence, the risk score returned by `Detect` is
`0.7 * (PoisonedCount / SampleCount) + 0.3 * meanConfidence`, where
`meanConfidence` is the arithmetic mean of the `confidence` fields of all
per-sample verdicts, and every unpoisoned verdict has confidence 0; an empty
sequence yields risk score 0. -/
theorem Detect_riskScore_formula (sqrt : ℚ → ℚ) (samples : List Sample) :
    ((Detect sqrt samples).riskScore =
      if samples.length = 0 then 0
      else ((Detect sqrt samples).poisonedCount : ℚ) / ((Detect sqrt samples).sampleCount : ℚ)
            * (7/10)
        + (((Detect sqrt samples).samples.map PoisonedSample.confidence).sum
            / ((Detect sqrt samples).sampleCount : ℚ)) * (3/10))
    ∧ ∀ v ∈ (Detect sqrt samples).samples, v.isPoisoned = false → v.confidence = 0 := by
  constructor
  · rw [Detect_riskScore_eq, Detect_poisonedCount_eq, Detect_sampleCount_eq, Detect_samples_eq]
  · intro v hv hnp
    rw [Detect_samples_eq, List.mem_map] at hv
    obtain ⟨s, -, rfl⟩ := hv
    rw [analyzeSample_unpoisoned sqrt s hnp]

/-- Constant-zero model of `math.Sqrt`, used in concrete witnesses that only
exercise code paths where the square root is not consulted. -/
def sqrtZero : ℚ → ℚ := fun _ => 0

/-- Concrete sample whose backdoor score is 0.8 (eight features equal to 10,
each deviating 5 from its half-value reference): flagged as poisoned. -/
def backdoorSample : Sample := ⟨"w-backdoor", [10, 10, 10, 10, 10, 10, 10, 10], 0, none⟩

/-- C1 witness: concrete instance on a one-sample list whose sample is flagged
(backdoor score 0.8), discharging the inner implications. -/
theorem Detect_riskScore_formula_witness :
    ((Detect sqrtZero [backdoorSample]).riskScore =
      ((Detect sqrtZero [backdoorSample]).poisonedCount : ℚ)
          / ((Detect sqrtZero [backdoorSample]).sampleCount : ℚ) * (7/10)
        + (((Detect sqrtZero [backdoorSample]).samples.map PoisonedSample.confidence).sum
          / ((Detect sqrtZero [backdoorSample]).sampleCount : ℚ)) * (3/10))
    ∧ ∀ v ∈ (Detect sqrtZero [backdoorSample]).samples,
        v.isPoisoned = false → v.confidence = 0 := by
  have h := Detect_riskScore_formula sqrtZero [backdoorSample]
  refine ⟨?_, h.2⟩
  have h1 := h.1
  simpa using h1

/-- C3: for every sample sequence, the detection result satisfies
`PoisonedCount ≤ SampleCount` and `0 ≤ RiskScore ≤ 1`. -/
theorem Detect_invariants (sqrt : ℚ → ℚ) (samples : List Sample) :
    (Detect sqrt samples).poisonedCount ≤ (Detect sqrt samples).sampleCount
    ∧ 0 ≤ (Detect sqrt samples).riskScore
    ∧ (Detect sqrt samples).riskScore ≤ 1 := by
  have hcount : (Detect sqrt samples).poisonedCount ≤ (Detect sqrt samples).sampleCount := by
    rw [Detect_poisonedCount_eq, Detect_sampleCount_eq]
    have hnat : (samples.map (analyzeSample sqrt)).countP (fun p => p.isPoisoned)
        ≤ (samples.map (analyzeSample sqrt)).length := List.countP_le_length _
    rwa [List.length_map] at hnat
  refine ⟨hcount, ?_, ?_⟩ <;> rw [Detect_riskScore_eq]
  · split
    · norm_num
    · next hn =>
      have hn0 : 0 < (samples.length : ℚ) := by
        exact_mod_cast Nat.pos_of_ne_zero hn
      obtain ⟨hs0, -⟩ := sum_confidence_bounds sqrt samples
      have hc0 : (0:ℚ) ≤ ((samples.map (analyzeSample sqrt)).countP (fun p => p.isPoisoned) : ℚ) :=
        Nat.cast_nonneg _
      have h1 : 0 ≤ ((samples.map (analyzeSample sqrt)).countP (fun p => p.isPoisoned) : ℚ)
          / (samples.length : ℚ) := div_nonneg hc0 hn0.le
      have h2 : 0 ≤ ((samples.map (analyzeSample sqrt)).map PoisonedSample.confidence).sum
          / (samples.length : ℚ) := div_nonneg hs0 hn0.le
      linarith
  · split
    · norm_num
    · next hn =>
      have hn0 : 0 < (samples.length : ℚ) := by
        exact_mod_cast Nat.pos_of_ne_zero hn
      obtain ⟨hs0, hs1⟩ := sum_confidence_bounds sqrt samples
      have hcle : ((samples.map (analyzeSample sqrt)).countP (fun p => p.isPoisoned) : ℚ)
          ≤ (samples.length : ℚ) := by
        have hnat : (samples.map (analyzeSample sqrt)).countP (fun p => p.isPoisoned)
            ≤ (samples.map (analyzeSample sqrt)).length := List.countP_le_length _
        rw [List.length_map] at hnat
        exact_mod_cast hnat
      have h1 : ((samples.map (analyzeSample sqrt)).countP (fun p => p.isPoisoned) : ℚ)
          / (samples.length : ℚ) ≤ 1 := (div_le_one hn0).mpr hcle
      have h1b : 0 ≤ ((samples.map (analyzeSample sqrt)).countP (fun p => p.isPoisoned) : ℚ)
          / (samples.length : ℚ) := div_nonneg (Nat.cast_nonneg _) hn0.le
      have h2 : ((samples.map (analyzeSample sqrt)).map PoisonedSample.confidence).sum
          / (samples.length : ℚ) ≤ 1 := (div_le_one hn0).mpr hs1
      have h2b : 0 ≤ ((samples.map (analyzeSample sqrt)).map PoisonedSample.confidence).sum
          / (samples.length : ℚ) := div_nonneg hs0 hn0.le
      linarith

/-- Sample with an empty feature sequence: on it the gradient-outlier scorer
computes `0.0/0.0 = NaN`. -/
def emptyFeatureSample : Sample := ⟨"w-empty", [], 0, none⟩

/-- C2 counterexample: on the sample with an empty feature sequence the
gradient-outlier scorer does not return a value in [0,1]; it returns NaN
(modelled `none`), refuting the claim as stated. -/
theorem checkGradientPoison_empty_not_in_unit :
    ¬ ∃ g, checkGradientPoison sqrtZero emptyFeatureSample = some g ∧ 0 ≤ g ∧ g ≤ 1 := by
  rintro ⟨g, hg, -, -⟩
  rw [(checkGradientPoison_eq_none_iff sqrtZero emptyFeatureSample).mpr rfl] at hg
  exact Option.noConfusion hg

/-- C2 amended: for every sample the backdoor, label-likelihood and
feature-outlier scorers return values in [0,1]; the gradient-outlier scorer
returns a value in [0,1] whenever the feature sequence is non-empty, but on an
empty feature sequence it returns NaN (`none`) instead of a value. -/
theorem scorer_range_amended (sqrt : ℚ → ℚ) (sample : Sample) :
    (0 ≤ checkBackdoor sample ∧ checkBackdoor sample ≤ 1)
    ∧ (0 ≤ checkLabelFlip sample ∧ checkLabelFlip sample ≤ 1)
    ∧ (0 ≤ checkFeaturePoison sqrt sample ∧ checkFeaturePoison sqrt sample ≤ 1)
    ∧ (sample.features ≠ [] →
        ∃ g, checkGradientPoison sqrt sample = some g ∧ 0 ≤ g ∧ g ≤ 1)
    ∧ (sample.features = [] → checkGradientPoison sqrt sample = none) := by
  refine ⟨checkBackdoor_bounds sample, ?_, checkFeaturePoison_bounds sqrt sample, ?_, ?_⟩
  · rw [checkLabelFlip_eq_zero]
    norm_num
  · intro hne
    rcases hgr : checkGradientPoison sqrt sample with _ | g
    · exact absurd ((checkGradientPoison_eq_none_iff sqrt sample).mp hgr) hne
    · exact ⟨g, rfl, checkGradientPoison_some_bounds hgr⟩
  · intro he
    exact (checkGradientPoison_eq_none_iff sqrt sample).mpr he

/-- Sample with a single feature, used to discharge the non-empty
hypothesis of the amended C2. -/
def singleFeatureSample : Sample := ⟨"w-one", [1], 0, none⟩

/-- C2 witness: the amended theorem applied at concrete samples, discharging
both implications. -/
theorem scorer_range_amended_witness :
    (∃ g, checkGradientPoison sqrtZero singleFeatureSample = some g ∧ 0 ≤ g ∧ g ≤ 1)
    ∧ checkGradientPoison sqrtZero emptyFeatureSample = none := by
  constructor
  · exact (scorer_range_amended sqrtZero singleFeatureSample).2.2.2.1
      (by simp [singleFeatureSample])
  · exact (scorer_range_amended sqrtZero emptyFeatureSample).2.2.2.2 rfl

/-- Spec-side characterization, following the words of spec §4.2: the ordered
list of the checks whose score strictly exceeds its per-type threshold, in the
evaluation order backdoor, label_flip, gradient_poison, feature_poison, each
entry carrying (score, type, description, evidence).  It exists only to state
C4 against `analyzeSample`, which is the embedding of the code. -/
def specFiredChecks (sqrt : ℚ → ℚ) (sample : Sample) :
    List (ℚ × PoisonType × String × String) :=
  (if thresholds TypeBackdoor < checkBackdoor sample then
    [(checkBackdoor sample, TypeBackdoor, "Potential backdoor trigger detected",
      "Unusual feature pattern")]
  else [])
  ++ (if thresholds TypeLabelFlip < checkLabelFlip sample then
    [(checkLabelFlip sample, TypeLabelFlip, "Suspicious label assignment detected",
      "Label-feature inconsistency")]
  else [])
  ++ (match checkGradientPoison sqrt sample with
    | none => []
    | some g =>
      if thresholds TypeGradientPoison < g then
        [(g, TypeGradientPoison, "Gradient manipulation detected",
          "Abnormal gradient pattern")]
      else [])
  ++ (if thresholds TypeFeaturePoison < checkFeaturePoison sqrt sample then
    [(checkFeaturePoison sqrt sample, TypeFeaturePoison, "Feature manipulation detected",
      "Anomalous feature values")]
  else [])

/-- C4: for every sample whose verdict is poisoned, the score strictly exceeds
the threshold of the recorded type, the score is the maximum scorer output
among the checks that exceeded their thresholds, and the type, description and
evidence are those of the last such check in evaluation order. -/
theorem analyzeSample_verdict_invariants (sqrt : ℚ → ℚ) (sample : Sample)
    (h : (analyzeSample sqrt sample).isPoisoned = true) :
    thresholds (analyzeSample sqrt sample).type < (analyzeSample sqrt sample).score
    ∧ (analyzeSample sqrt sample).score ∈ (specFiredChecks sqrt sample).map (fun c => c.1)
    ∧ (∀ s ∈ (specFiredChecks sqrt sample).map (fun c => c.1),
        s ≤ (analyzeSample sqrt sample).score)
    ∧ ∃ lastFired, (specFiredChecks sqrt sample).getLast? = some lastFired
        ∧ (analyzeSample sqrt sample).type = lastFired.2.1
        ∧ (analyzeSample sqrt sample).description = lastFired.2.2.1
        ∧ (analyzeSample sqrt sample).evidence = lastFired.2.2.2 := by
  have hlf := labelFlip_never_fires sample
  have hgt0 : (0:ℚ) ≤ thresholds TypeGradientPoison := by
    rw [thresholds_gradientPoison]; norm_num
  have hft0 : (0:ℚ) ≤ thresholds TypeFeaturePoison := by
    rw [thresholds_featurePoison]; norm_num
  rcases hg : checkGradientPoison sqrt sample with _ | g
  · by_cases hb : thresholds TypeBackdoor < checkBackdoor sample
    · by_cases hf : thresholds TypeFeaturePoison < checkFeaturePoison sqrt sample
      · -- backdoor and feature fired
        have hr : analyzeSample sqrt sample =
            { id := sample.id
              isPoisoned := true
              score := max (checkBackdoor sample) (checkFeaturePoison sqrt sample)
              type := TypeFeaturePoison
              description := "Feature manipulation detected"
              evidence := "Anomalous feature values"
              confidence := checkFeaturePoison sqrt sample } := by
          simp [analyzeSample, hg, hb, hf, hlf]
        have hfl : specFiredChecks sqrt sample =
            [(checkBackdoor sample, TypeBackdoor, "Potential backdoor trigger detected",
              "Unusual feature pattern"),
             (checkFeaturePoison sqrt sample, TypeFeaturePoison,
              "Feature manipulation detected", "Anomalous feature values")] := by
          simp [specFiredChecks, hg, hb, hf, hlf]
        refine ⟨?_, ?_, ?_, ?_⟩
        · rw [hr]
          exact lt_of_lt_of_le hf (le_max_right _ _)
        · rw [hr, hfl]
          rcases max_choice (checkBackdoor sample) (checkFeaturePoison sqrt sample) with hc | hc <;>
            simp [hc]
        · rw [hr, hfl]
          intro s hs
          simp only [List.map_cons, List.map_nil, List.mem_cons, List.not_mem_nil,
            or_false] at hs
          rcases hs with rfl | rfl
          · exact le_max_left _ _
          · exact le_max_right _ _
        · rw [hr, hfl]
          exact ⟨_, rfl, rfl, rfl, rfl⟩
      · -- only backdoor fired
        have hr : analyzeSample sqrt sample =
            { id := sample.id
              isPoisoned := true
              score := checkBackdoor sample
              type := TypeBackdoor
              description := "Potential backdoor trigger detected"
              evidence := "Unusual feature pattern"
              confidence := checkBackdoor sample } := by
          simp [analyzeSample, hg, hb, hf, hlf]
        have hfl : specFiredChecks sqrt sample =
            [(checkBackdoor sample, TypeBackdoor, "Potential backdoor trigger detected",
              "Unusual feature pattern")] := by
          simp [specFiredChecks, hg, hb, hf, hlf]
        refine ⟨?_, ?_, ?_, ?_⟩
        · rw [hr]
          exact hb
        · rw [hr, hfl]
          simp
        · rw [hr, hfl]
          intro s hs
          simp only [List.map_cons, List.map_nil, List.mem_cons, List.not_mem_nil,
            or_false] at hs
          rw [hs]
        · rw [hr, hfl]
          exact ⟨_, rfl, rfl, rfl, rfl⟩
    · by_cases hf : thresholds TypeFeaturePoison < checkFeaturePoison sqrt sample
      · -- only feature fired
        have h0f : (0:ℚ) ≤ checkFeaturePoison sqrt sample := le_trans hft0 hf.le
        have hr : analyzeSample sqrt sample =
            { id := sample.id
              isPoisoned := true
              score := max 0 (checkFeaturePoison sqrt sample)
              type := TypeFeaturePoison
              description := "Feature manipulation detected"
              evidence := "Anomalous feature values"
              confidence := checkFeaturePoison sqrt sample } := by
          simp [analyzeSample, hg, hb, hf, hlf]
        have hfl : specFiredChecks sqrt sample =
            [(checkFeaturePoison sqrt sample, TypeFeaturePoison,
              "Feature manipulation detected", "Anomalous feature values")] := by
          simp [specFiredChecks, hg, hb, hf, hlf]
        refine ⟨?_, ?_, ?_, ?_⟩
        · rw [hr]
          exact lt_of_lt_of_le hf (le_max_right _ _)
        · rw [hr, hfl]
          simp [max_eq_right h0f]
        · rw [hr, hfl]
          intro s hs
          simp only [List.map_cons, List.map_nil, List.mem_cons, List.not_mem_nil,
            or_false] at hs
          rw [hs]
          exact le_max_right _ _
        · rw [hr, hfl]
          exact ⟨_, rfl, rfl, rfl, rfl⟩
      · -- nothing fired: contradicts the poisoned hypothesis
        exfalso
        simp [analyzeSample, hg, hb, hf, hlf] at h
  · have hg0g : thresholds TypeGradientPoison < g → (0:ℚ) ≤ g := fun hgt =>
      le_trans hgt0 hgt.le
    by_cases hb : thresholds TypeBackdoor < checkBackdoor sample
    · by_cases hgt : thresholds TypeGradientPoison < g
      · by_cases hf : thresholds TypeFeaturePoison < checkFeaturePoison sqrt sample
        · -- backdoor, gradient and feature fired
          have hr : analyzeSample sqrt sample =
              { id := sample.id
                isPoisoned := true
                score := max (max (checkBackdoor sample) g) (checkFeaturePoison sqrt sample)
                type := TypeFeaturePoison
                description := "Feature manipulation detected"
                evidence := "Anomalous feature values"
                confidence := checkFeaturePoison sqrt sample } := by
            simp [analyzeSample, hg, hb, hgt, hf, hlf]
          have hfl : specFiredChecks sqrt sample =
              [(checkBackdoor sample, TypeBackdoor, "Potential backdoor trigger detected",
                "Unusual feature pattern"),
               (g, TypeGradientPoison, "Gradient manipulation detected",
                "Abnormal gradient pattern"),
               (checkFeaturePoison sqrt sample, TypeFeaturePoison,
                "Feature manipulation detected", "Anomalous feature values")] := by
            simp [specFiredChecks, hg, hb, hgt, hf, hlf]
          refine ⟨?_, ?_, ?_, ?_⟩
          · rw [hr]
            exact lt_of_lt_of_le hf (le_max_right _ _)
          · rw [hr, hfl]
            have hmem : max (max (checkBackdoor sample) g) (checkFeaturePoison sqrt sample)
                  = checkBackdoor sample
                ∨ max (max (checkBackdoor sample) g) (checkFeaturePoison sqrt sample) = g
                ∨ max (max (checkBackdoor sample) g) (checkFeaturePoison sqrt sample)
                  = checkFeaturePoison sqrt sample := by
              rcases max_choice (max (checkBackdoor sample) g)
                  (checkFeaturePoison sqrt sample) with hc | hc
              · rcases max_choice (checkBackdoor sample) g with hc2 | hc2
                · exact Or.inl (hc.trans hc2)
                · exact Or.inr (Or.inl (hc.trans hc2))
              · exact Or.inr (Or.inr hc)
            rcases hmem with hc | hc | hc <;> simp [hc]
          · rw [hr, hfl]
            intro s hs
            simp only [List.map_cons, List.map_nil, List.mem_cons, List.not_mem_nil,
              or_false] at hs
            rcases hs with rfl | rfl | rfl
            · exact le_trans (le_max_left _ _) (le_max_left _ _)
            · exact le_trans (le_max_right _ _) (le_max_left _ _)
            · exact le_max_right _ _
          · rw [hr, hfl]
            exact ⟨_, rfl, rfl, rfl, rfl⟩
        · -- backdoor and gradient fired
          have hr : analyzeSample sqrt sample =
              { id := sample.id
                isPoisoned := true
                score := max (checkBackdoor sample) g
                type := TypeGradientPoison
                description := "Gradient manipulation detected"
                evidence := "Abnormal gradient pattern"
                confidence := g } := by
            simp [analyzeSample, hg, hb, hgt, hf, hlf]
          have hfl : specFiredChecks sqrt sample =
              [(checkBackdoor sample, TypeBackdoor, "Potential backdoor trigger detected",
                "Unusual feature pattern"),
               (g, TypeGradientPoison, "Gradient manipulation detected",
                "Abnormal gradient pattern")] := by
            simp [specFiredChecks, hg, hb, hgt, hf, hlf]
          refine ⟨?_, ?_, ?_, ?_⟩
          · rw [hr]
            exact lt_of_lt_of_le hgt (le_max_right _ _)
          · rw [hr, hfl]
            rcases max_choice (checkBackdoor sample) g with hc | hc <;> simp [hc]
          · rw [hr, hfl]
            intro s hs
            simp only [List.map_cons, List.map_nil, List.mem_cons, List.not_mem_nil,
              or_false] at hs
            rcases hs with rfl | rfl
            · exact le_max_left _ _
            · exact le_max_right _ _
          · rw [hr, hfl]
            exact ⟨_, rfl, rfl, rfl, rfl⟩
      · by_cases hf : thresholds TypeFeaturePoison < checkFeaturePoison sqrt sample
        · -- backdoor and feature fired (gradient below threshold)
          have hr : analyzeSample sqrt sample =
              { id := sample.id
                isPoisoned := true
                score := max (checkBackdoor sample) (checkFeaturePoison sqrt sample)
                type := TypeFeaturePoison
                description := "Feature manipulation detected"
                evidence := "Anomalous feature values"
                confidence := checkFeaturePoison sqrt sample } := by
            simp [analyzeSample, hg, hb, hgt, hf, hlf]
          have hfl : specFiredChecks sqrt sample =
              [(checkBackdoor sample, TypeBackdoor, "Potential backdoor trigger detected",
                "Unusual feature pattern"),
               (checkFeaturePoison sqrt sample, TypeFeaturePoison,
                "Feature manipulation detected", "Anomalous feature values")] := by
            simp [specFiredChecks, hg, hb, hgt, hf, hlf]
          refine ⟨?_, ?_, ?_, ?_⟩
          · rw [hr]
            exact lt_of_lt_of_le hf (le_max_right _ _)
          · rw [hr, hfl]
            rcases max_choice (checkBackdoor sample)
                (checkFeaturePoison sqrt sample) with hc | hc <;> simp [hc]
          · rw [hr, hfl]
            intro s hs
            simp only [List.map_cons, List.map_nil, List.mem_cons, List.not_mem_nil,
              or_false] at hs
            rcases hs with rfl | rfl
            · exact le_max_left _ _
            · exact le_max_right _ _
          · rw [hr, hfl]
            exact ⟨_, rfl, rfl, rfl, rfl⟩
        · -- only backdoor fired
          have hr : analyzeSample sqrt sample =
              { id := sample.id
                isPoisoned := true
                score := checkBackdoor sample
                type := TypeBackdoor
                description := "Potential backdoor trigger detected"
                evidence := "Unusual feature pattern"
                confidence := checkBackdoor sample } := by
            simp [analyzeSample, hg, hb, hgt, hf, hlf]
          have hfl : specFiredChecks sqrt sample =
              [(checkBackdoor sample, TypeBackdoor, "Potential backdoor trigger detected",
                "Unusual feature pattern")] := by
            simp [specFiredChecks, hg, hb, hgt, hf, hlf]
          refine ⟨?_, ?_, ?_, ?_⟩
          · rw [hr]
            exact hb
          · rw [hr, hfl]
            simp
          · rw [hr, hfl]
            intro s hs
            simp only [List.map_cons, List.map_nil, List.mem_cons, List.not_mem_nil,
              or_false] at hs
            rw [hs]
          · rw [hr, hfl]
            exact ⟨_, rfl, rfl, rfl, rfl⟩
    · by_cases hgt : thresholds TypeGradientPoison < g
      · by_cases hf : thresholds TypeFeaturePoison < checkFeaturePoison sqrt sample
        · -- gradient and feature fired
          have hr : analyzeSample sqrt sample =
              { id := sample.id
                isPoisoned := true
                score := max (max 0 g) (checkFeaturePoison sqrt sample)
                type := TypeFeaturePoison
                description := "Feature manipulation detected"
                evidence := "Anomalous feature values"
                confidence := checkFeaturePoison sqrt sample } := by
            simp [analyzeSample, hg, hb, hgt, hf, hlf]
          have hfl : specFiredChecks sqrt sample =
              [(g, TypeGradientPoison, "Gradient manipulation detected",
                "Abnormal gradient pattern"),
               (checkFeaturePoison sqrt sample, TypeFeaturePoison,
                "Feature manipulation detected", "Anomalous feature values")] := by
            simp [specFiredChecks, hg, hb, hgt, hf, hlf]
          have hmg : max (0:ℚ) g = g := max_eq_right (hg0g hgt)
          refine ⟨?_, ?_, ?_, ?_⟩
          · rw [hr]
            exact lt_of_lt_of_le hf (le_max_right _ _)
          · rw [hr, hfl, hmg]
            rcases max_choice g (checkFeaturePoison sqrt sample) with hc | hc <;> simp [hc]
          · rw [hr, hfl, hmg]
            intro s hs
            simp only [List.map_cons, List.map_nil, List.mem_cons, List.not_mem_nil,
              or_false] at hs
            rcases hs with rfl | rfl
            · exact le_max_left _ _
            · exact le_max_right _ _
          · rw [hr, hfl]
            exact ⟨_, rfl, rfl, rfl, rfl⟩
        · -- only gradient fired
          have hr : analyzeSample sqrt sample =
              { id := sample.id
                isPoisoned := true
                score := max 0 g
                type := TypeGradientPoison
                description := "Gradient manipulation detected"
                evidence := "Abnormal gradient pattern"
                confidence := g } := by
            simp [analyzeSample, hg, hb, hgt, hf, hlf]
          have hfl : specFiredChecks sqrt sample =
              [(g, TypeGradientPoison, "Gradient manipulation detected",
                "Abnormal gradient pattern")] := by
            simp [specFiredChecks, hg, hb, hgt, hf, hlf]
          refine ⟨?_, ?_, ?_, ?_⟩
          · rw [hr]
            exact lt_of_lt_of_le hgt (le_max_right _ _)
          · rw [hr, hfl]
            simp [max_eq_right (hg0g hgt)]
          · rw [hr, hfl]
            intro s hs
            simp only [List.map_cons, List.map_nil, List.mem_cons, List.not_mem_nil,
              or_false] at hs
            rw [hs]
            exact le_max_right _ _
          · rw [hr, hfl]
            exact ⟨_, rfl, rfl, rfl, rfl⟩
      · by_cases hf : thresholds TypeFeaturePoison < checkFeaturePoison sqrt sample
        · -- only feature fired
          have h0f : (0:ℚ) ≤ checkFeaturePoison sqrt sample := le_trans hft0 hf.le
          have hr : analyzeSample sqrt sample =
              { id := sample.id
                isPoisoned := true
                score := max 0 (checkFeaturePoison sqrt sample)
                type := TypeFeaturePoison
                description := "Feature manipulation detected"
                evidence := "Anomalous feature values"
                confidence := checkFeaturePoison sqrt sample } := by
            simp [analyzeSample, hg, hb, hgt, hf, hlf]
          have hfl : specFiredChecks sqrt sample =
              [(checkFeaturePoison sqrt sample, TypeFeaturePoison,
                "Feature manipulation detected", "Anomalous feature values")] := by
            simp [specFiredChecks, hg, hb, hgt, hf, hlf]
          refine ⟨?_, ?_, ?_, ?_⟩
          · rw [hr]
            exact lt_of_lt_of_le hf (le_max_right _ _)
          · rw [hr, hfl]
            simp [max_eq_right h0f]
          · rw [hr, hfl]
            intro s hs
            simp only [List.map_cons, List.map_nil, List.mem_cons, List.not_mem_nil,
              or_false] at hs
            rw [hs]
            exact le_max_right _ _
          · rw [hr, hfl]
            exact ⟨_, rfl, rfl, rfl, rfl⟩
        · -- nothing fired: contradicts the poisoned hypothesis
          exfalso
          simp [analyzeSample, hg, hb, hgt, hf, hlf] at h

/-- C4 witness: the verdict invariants at a concrete poisoned sample (backdoor
fires with score 0.8). -/
theorem analyzeSample_verdict_invariants_witness :
    thresholds (analyzeSample sqrtZero backdoorSample).type
        < (analyzeSample sqrtZero backdoorSample).score
    ∧ (analyzeSample sqrtZero backdoorSample).score
        ∈ (specFiredChecks sqrtZero backdoorSample).map (fun c => c.1)
    ∧ (∀ s ∈ (specFiredChecks sqrtZero backdoorSample).map (fun c => c.1),
        s ≤ (analyzeSample sqrtZero backdoorSample).score)
    ∧ ∃ lastFired, (specFiredChecks sqrtZero backdoorSample).getLast? = some lastFired
        ∧ (analyzeSample sqrtZero backdoorSample).type = lastFired.2.1
        ∧ (analyzeSample sqrtZero backdoorSample).description = lastFired.2.2.1
        ∧ (analyzeSample sqrtZero backdoorSample).evidence = lastFired.2.2.2 := by
  apply analyzeSample_verdict_invariants sqrtZero backdoorSample
  norm_num [analyzeSample, checkBackdoor, checkLabelFlip, checkGradientPoison,
    checkFeaturePoison, calculateAverage, calculateMean, calculateStdDev,
    calculateLabelLikelihood, backdoorSample, sqrtZero, thresholds_backdoor,
    thresholds_labelFlip, thresholds_gradientPoison, thresholds_featurePoison,
    List.zip, List.zipWith, List.foldl, List.countP_cons, List.countP_nil]

/-- C5: `Defend` returns success with `improvement = effectiveness * risk`,
`riskReduction = risk - improvement` and `cost = overhead` when the name
matches a catalog entry, and the zero-valued failure result for any unknown
name, never failing fatally. -/
theorem Defend_lookup_behavior (poisoningRisk : ℚ) (strategy : String) :
    (∀ strat ∈ strategies, strat.name = strategy →
        Defend poisoningRisk strategy =
          { success := true
            strategyUsed := strat.name
            improvement := strat.effectiveness * poisoningRisk
            riskReduction := poisoningRisk - strat.effectiveness * poisoningRisk
            cost := strat.overhead })
    ∧ ((∀ strat ∈ strategies, strat.name ≠ strategy) →
        Defend poisoningRisk strategy =
          { success := false
            strategyUsed := ""
            improvement := 0
            riskReduction := 0
            cost := 0 }) := by
  constructor
  · intro strat hmem heq
    subst heq
    simp only [strategies, List.mem_cons, List.not_mem_nil, or_false] at hmem
    rcases hmem with rfl | rfl | rfl | rfl | rfl | rfl <;> rfl
  · intro hno
    have hfind : strategies.find? (fun strat => strat.name == strategy) = none := by
      rw [List.find?_eq_none]
      intro x hx
      simpa using hno x hx
    unfold Defend
    rw [hfind]

/-- C5 witness: concrete lookups, one hitting the catalog and one missing
it. -/
theorem Defend_lookup_behavior_witness :
    Defend (1/2) "Data Cleaning" =
      { success := true
        strategyUsed := "Data Cleaning"
        improvement := 3/4 * (1/2)
        riskReduction := 1/2 - 3/4 * (1/2)
        cost := 1/5 }
    ∧ Defend (1/2) "No Such Strategy" =
      { success := false
        strategyUsed := ""
        improvement := 0
        riskReduction := 0
        cost := 0 } := by
  constructor
  · exact (Defend_lookup_behavior (1/2) "Data Cleaning").1
      ⟨"Data Cleaning", "Remove suspicious samples", 3/4, 1/5, "preprocessing"⟩
      (by simp [strategies]) rfl
  · exact (Defend_lookup_behavior (1/2) "No Such Strategy").2
      (by simp [strategies])

lemma isValidInput_iff (sample : Sample) :
    isValidInput sample = true ↔
      (sample.features ≠ [] ∧ ∀ f ∈ sample.features, -100 ≤ f ∧ f ≤ 100) := by
  unfold isValidInput
  by_cases h : sample.features.length = 0
  · have he : sample.features = [] := List.length_eq_zero.mp h
    simp [h, he]
  · have hne : sample.features ≠ [] := fun he => h (by simp [he])
    simp [h, hne, List.all_eq_true, not_or, not_lt]

/-- C7: `ApplyDefense` with the filtering strategy "Input Filtering" returns
exactly the in-order subsequence of samples passing `isValidInput`, and a
sample is valid precisely when its feature sequence is non-empty with every
feature in [-100, 100]. -/
theorem ApplyDefense_inputFiltering (sqrt : ℚ → ℚ) (samples : List Sample) :
    ApplyDefense sqrt samples "Input Filtering" = some (samples.filter isValidInput)
    ∧ ∀ sample : Sample, isValidInput sample = true ↔
        (sample.features ≠ [] ∧ ∀ f ∈ sample.features, -100 ≤ f ∧ f ≤ 100) := by
  exact ⟨rfl, isValidInput_iff⟩

lemma defense_foldl_sum (l : List DefenseResult) (acc : ℚ) :
    l.foldl (fun s result => if result.success then s + result.improvement else s) acc
      = acc + ((l.filter (fun r => r.success)).map (fun r => r.improvement)).sum := by
  induction l generalizing acc with
  | nil => simp
  | cons r t ih =>
    by_cases hr : r.success = true
    · simp [List.foldl_cons, List.filter_cons, hr, ih]
      ring
    · simp [List.foldl_cons, List.filter_cons, hr, ih]

/-- C8: `CalculateDefenseScore` is the sum of `Improvement` over successful
results divided by the total result count, with 0 on an empty sequence; in
particular one successful result of improvement 0.4 scores 0.4, and that
result plus a failed one scores 0.2. -/
theorem CalculateDefenseScore_spec (results : List DefenseResult) :
    (CalculateDefenseScore results =
      if results = [] then 0
      else ((results.filter (fun r => r.success)).map (fun r => r.improvement)).sum
        / (results.length : ℚ))
    ∧ CalculateDefenseScore [] = 0
    ∧ CalculateDefenseScore [⟨true, "", 2/5, 0, 0⟩] = 2/5
    ∧ CalculateDefenseScore [⟨true, "", 2/5, 0, 0⟩, ⟨false, "", 0, 0, 0⟩] = 1/5 := by
  refine ⟨?_, rfl, ?_, ?_⟩
  · by_cases h : results = []
    · simp [h, CalculateDefenseScore]
    · have hl : ¬ results.length = 0 := by simpa [List.length_eq_zero] using h
      simp only [CalculateDefenseScore, if_neg hl, if_neg h]
      rw [defense_foldl_sum]
      norm_num
  · norm_num [CalculateDefenseScore, List.foldl]
  · norm_num [CalculateDefenseScore, List.foldl]

lemma detectOutliers_total (sqrt : ℚ → ℚ) (samples : List Sample)
    (h : ∀ s ∈ samples, isOutlier sqrt s = true → s.metadata ≠ none) :
    ∃ out, detectOutliers sqrt samples = some out := by
  induction samples with
  | nil => exact ⟨[], rfl⟩
  | cons s t ih =>
    obtain ⟨out, hout⟩ := ih (fun x hx hox => h x (List.mem_cons_of_mem _ hx) hox)
    by_cases ho : isOutlier sqrt s = true
    · rcases hmd : s.metadata with _ | m
      · exact absurd hmd (h s (List.mem_cons_self _ _) ho)
      · refine ⟨{ s with metadata := some (mapAssign "suspicious" true m) } :: out, ?_⟩
        simp [detectOutliers, ho, hmd, hout]
    · refine ⟨s :: out, ?_⟩
      simp [detectOutliers, ho, hout]

/-- Concrete stand-in for `math.Sqrt` in the C10 instances: its only consulted
values are `sqrt 9 = 3` (the variance of the outlier sample) and `sqrt 0 = 0`. -/
def sqrtNine : ℚ → ℚ := fun q => if q = 9 then 3 else 0

/-- Outlier sample with a nil metadata map: ten features [10,0,...,0] give
mean 1, standard deviation 3, and z-score 3 > 2.5 for the first feature. -/
def outlierNilSample : Sample := ⟨"w-outlier", [10, 0, 0, 0, 0, 0, 0, 0, 0, 0], 0, none⟩

lemma isOutlier_outlierNilSample : isOutlier sqrtNine outlierNilSample = true := by
  have hm : defendCalculateMean outlierNilSample.features = 1 := by
    simp [defendCalculateMean, outlierNilSample]
  have hsd : defendCalculateStdDev sqrtNine outlierNilSample.features 1 = 3 := by
    simp [defendCalculateStdDev, outlierNilSample]
    norm_num [sqrtNine]
  simp only [isOutlier, hm, hsd]
  norm_num [outlierNilSample]

/-- C10: `ApplyDefense` with the detection strategy "Outlier Detection" is
total when every outlier sample has a non-nil metadata map, and panics
(modelled `none`) on an outlier sample whose metadata map is nil, because
`detectOutliers` assigns into the caller-supplied map. -/
theorem detectOutliers_nil_map_panic :
    (∀ (sqrt : ℚ → ℚ) (samples : List Sample),
        (∀ s ∈ samples, isOutlier sqrt s = true → s.metadata ≠ none) →
        ∃ out, ApplyDefense sqrt samples "Outlier Detection" = some out)
    ∧ isOutlier sqrtNine outlierNilSample = true
    ∧ outlierNilSample.metadata = none
    ∧ ApplyDefense sqrtNine [outlierNilSample] "Outlier Detection" = none := by
  have hdisp : ∀ (sqrt : ℚ → ℚ) (samples : List Sample),
      ApplyDefense sqrt samples "Outlier Detection" = detectOutliers sqrt samples :=
    fun _ _ => rfl
  refine ⟨?_, isOutlier_outlierNilSample, rfl, ?_⟩
  · intro sqrt samples h
    rw [hdisp]
    exact detectOutliers_total sqrt samples h
  · rw [hdisp]
    simp only [detectOutliers, isOutlier_outlierNilSample]
    simp [outlierNilSample]

/-- Sample that is not an outlier (single feature, standard deviation 0),
used to discharge the totality precondition of C10. -/
def inlierSample : Sample := ⟨"w-ok", [1], 0, none⟩

/-- C10 witness: the totality half applied to a concrete sample list whose
precondition holds. -/
theorem detectOutliers_nil_map_panic_witness :
    ∃ out, ApplyDefense sqrtNine [inlierSample] "Outlier Detection" = some out := by
  apply (detectOutliers_nil_map_panic).1 sqrtNine [inlierSample]
  intro s hs hos
  simp only [List.mem_cons, List.not_mem_nil, or_false] at hs
  subst hs
  have hm : defendCalculateMean inlierSample.features = 1 := by
    simp [defendCalculateMean, inlierSample]
  have hsd : defendCalculateStdDev sqrtNine inlierSample.features 1 = 0 := by
    simp [defendCalculateStdDev, inlierSample]
    norm_num [sqrtNine]
  simp only [isOutlier, hm, hsd] at hos
  simp at hos
